import Mathlib

/-!
Verification of the PRY_SR job-recommendation backend (Flask + scikit-learn).

Shallow embedding of the core pipeline:
* `app/models/data_manager.py`  — reference-data store (`DataManager`),
* `app/models/user_vectorizer.py` — 76-dimensional student-vector builder,
* `app/models/recommender.py`  — posting corpus engine and ranking.

Conventions of the embedding:
* Python strings are `List Char` (`Str` below); `String.toList` is used to
  write literals.  `str.strip` / `str.lower` are modelled over the ASCII
  range (the data processed by the system is ASCII-normalised skill text).
* numpy arrays are `List ℚ`; 2-dimensional arrays are `Mat` (a shape pair
  plus an entry function).  Machine floats are modelled as exact rationals;
  the float literals 0.99 and 0.5 of the source are the rationals 99/100
  and 1/2.
* External library computations that the repository only calls
  (scikit-learn's TF-IDF cosine similarity, the CSV reader, the fitted
  vectorizer of a posting file) enter the model as parameters of the
  environment structures; everything the repository itself computes with
  them is translated from the source.
* A Python function that can raise models as `Except PyError`; one that
  returns `None` on failure models as `Option`.
-/

namespace PRY

/-- Python strings, modelled as their character lists. -/
abbrev Str := List Char

/-- The whitespace characters `str.strip()` removes (the ASCII ones:
space, tab, newline, carriage return, vertical tab, form feed). -/
def pyIsSpace (c : Char) : Bool :=
  c = ' ' || c = '\t' || c = '\n' || c = '\r' || c = '\x0b' || c = '\x0c'

/-- Python `s.strip()`: drop leading and trailing whitespace. -/
def strip (s : Str) : Str :=
  ((s.dropWhile pyIsSpace).reverse.dropWhile pyIsSpace).reverse

/-- Python `s.lower()` over the ASCII range. -/
def lower (s : Str) : Str := s.map Char.toLower

/-- The separator class of `re.split(r',|;|/|\n', texto)` in
`_normalize_text` (user_vectorizer.py line 55). -/
def esSeparador (c : Char) : Bool :=
  c = ',' || c = ';' || c = '/' || c = '\n'

/-- Splitting on the separator class, keeping empty pieces, exactly as
`re.split` on an alternation of single characters does. -/
def splitSep : Str → List Str
  | [] => [[]]
  | c :: cs =>
    if esSeparador c then [] :: splitSep cs
    else
      match splitSep cs with
      | [] => [[c]]
      | t :: ts => (c :: t) :: ts

/-- Python `needle in haystack` for strings: contiguous-substring test. -/
def containsSub (needle : Str) : Str → Bool
  | [] => needle.isPrefixOf []
  | c :: rest => needle.isPrefixOf (c :: rest) || containsSub needle rest

/-! ## Reference-data store (`app/models/data_manager.py`)

`DataManager._datos_procesados` is the dictionary unpickled from
`datos_procesados.pkl`; each reference structure is read from it with
`.get(key, default)`, so a key may be absent even when the bundle loaded.
The file-system search, download and Git-LFS fallback of `_load_data` are
process bootstrap (I/O); the state after it is the model. -/

/-- The unpickled bundle: each `.get`-read key may be present or absent. -/
structure DatosProcesados where
  habilidades? : Option (List Str)
  grupos_bge_ngram? : Option (List (Str × List Str))
  tfidf_epn_69d? : Option (List (Str × List ℚ))

/-- The singleton state of `DataManager`: the `_is_loaded` flag and the
`_datos_procesados` reference (`None` before a successful load). -/
structure DataManagerState where
  is_loaded : Bool
  datos_procesados : Option DatosProcesados

/-- `DataManager.is_ready` (data_manager.py lines 203-205):
`self._is_loaded and self._datos_procesados is not None`. -/
def DataManagerState.is_ready (st : DataManagerState) : Bool :=
  st.is_loaded && st.datos_procesados.isSome

/-- The `habilidades` property: `self._datos_procesados.get('habilidades', [])`
(after the load; on an unloaded `None` bundle the source would raise). -/
def DataManagerState.habilidades (st : DataManagerState) : List Str :=
  match st.datos_procesados with
  | some d => d.habilidades?.getD []
  | none => []

/-- The `grupos_bge_ngram` property: `.get('grupos_bge_ngram', {})`. -/
def DataManagerState.grupos_bge_ngram (st : DataManagerState) :
    List (Str × List Str) :=
  match st.datos_procesados with
  | some d => d.grupos_bge_ngram?.getD []
  | none => []

/-- The `tfidf_epn_69d` property: `.get('tfidf_epn_69d')` (`None` when the
key is absent, modelled as an empty career table). -/
def DataManagerState.tfidf_epn_69d (st : DataManagerState) :
    List (Str × List ℚ) :=
  match st.datos_procesados with
  | some d => d.tfidf_epn_69d?.getD []
  | none => []

/-! ## Student-vector builder (`app/models/user_vectorizer.py`) -/

/-- The state a `UserVectorizer` instance holds after `__init__`:
the three reference structures it copies out of the `DataManager`, and the
fitted TF-IDF similarity oracle.  `sim a h` is the cosine similarity
`cosine_similarity(vectorizer.transform([a]), vectorizer.transform([h]))`
that `_find_similar_skills` computes with scikit-learn; the library
computation is the parameter, everything done with its value is modelled
from the source. -/
structure UserVectorizer where
  habilidades : List Str
  grupos_bge_ngram : List (Str × List Str)
  tfidf_epn_69d : List (Str × List ℚ)
  sim : Str → Str → ℚ

/-- `get_academic_vector_69d` (lines 24-40): `None` when the career is not a
column of `tfidf_epn_69d`, otherwise the career's column
(`tfidf_epn_69d.T.loc[carrera]`, the first column of that name). -/
def get_academic_vector_69d (env : UserVectorizer) (carrera_academica : Str) :
    Option (List ℚ) :=
  env.tfidf_epn_69d.lookup carrera_academica

/-- `_normalize_text` (lines 42-56): split on comma/semicolon/slash/newline,
strip and lower-case each piece, keep the non-empty ones. -/
def normalize_text (texto : Str) : List Str :=
  if (strip texto).isEmpty then []
  else
    (splitSep texto).filterMap fun a =>
      if (strip a).isEmpty then none else some (lower (strip a))

/-- The similarity threshold `threshold: float = 0.5` of
`_find_similar_skills`. -/
def umbral : ℚ := mkRat 1 2

/-- `_find_similar_skills` (lines 58-81): the vocabulary terms whose TF-IDF
cosine similarity to the subject reaches the threshold (`sims >= threshold`),
in vocabulary order; empty for a blank subject. -/
def find_similar_skills (env : UserVectorizer) (asignatura : Str)
    (threshold : ℚ) : List Str :=
  if (strip asignatura).isEmpty then []
  else env.habilidades.filter fun hab =>
    decide (threshold ≤ env.sim asignatura hab)

/-- The maximum personalization weight `0.99` of `personalize_vector_69d`
line 106. -/
def pesoMax : ℚ := mkRat 99 100

/-- The body of the inner loop of `personalize_vector_69d` (lines 102-108):
`skill_idx = self.habilidades.index(skill)` (first occurrence; a
`ValueError` for an absent skill is caught and skipped), then
`if 0 <= skill_idx < len(vector): vector[skill_idx] = 0.99`. -/
def aplicarSkill (habilidades : List Str) (vector : List ℚ) (skill : Str) :
    List ℚ :=
  if skill ∈ habilidades then
    if habilidades.indexOf skill < vector.length then
      vector.set (habilidades.indexOf skill) pesoMax
    else vector
  else vector

/-- `personalize_vector_69d` (lines 83-110): return the base unchanged when
it is not 69-dimensional; otherwise overwrite, for each subject token and
each vocabulary term similar to it, the component at the term's index in the
vocabulary list with 0.99. -/
def personalize_vector_69d (env : UserVectorizer) (vector_base_69d : List ℚ)
    (asignaturas_relevantes : Str) : List ℚ :=
  if vector_base_69d.length ≠ 69 then vector_base_69d
  else
    (normalize_text asignaturas_relevantes).foldl
      (fun vector asignatura =>
        (find_similar_skills env asignatura umbral).foldl
          (aplicarSkill env.habilidades) vector)
      vector_base_69d

/-- All vocabulary terms matched by some subject token of the text, in
processing order (the skills the two nested loops of
`personalize_vector_69d` run over, flattened). -/
def matchedSkills (env : UserVectorizer) (asignaturas : Str) : List Str :=
  (normalize_text asignaturas).flatMap fun a => find_similar_skills env a umbral

/-- `_normalize_soft_skills` (lines 112-135): `none` models a `None`
argument.  A missing or non-7-length list yields the neutral default
`np.ones(7) * 0.5`; otherwise each rating is clipped to `[1, 5]` and mapped
by `(value - 1) / 4`.  The function is total: the source catches its own
conversion errors and falls back to the default. -/
def normalize_soft_skills (valores_1_a_5 : Option (List ℚ)) : List ℚ :=
  match valores_1_a_5 with
  | none => List.replicate 7 (mkRat 1 2)
  | some valores =>
    if valores.length ≠ 7 then List.replicate 7 (mkRat 1 2)
    else valores.map fun v => (min (max v 1) 5 - 1) / 4

/-- `create_vector_76d` (lines 137-169): base academic vector (`None` → no
vector), personalization by subjects, soft-skill block, concatenation. -/
def create_vector_76d (env : UserVectorizer) (carrera_academica : Str)
    (asignaturas_relevantes : Str) (soft_skills_1_to_5 : Option (List ℚ)) :
    Option (List ℚ) :=
  match get_academic_vector_69d env carrera_academica with
  | none => none
  | some vector_69d =>
    some (personalize_vector_69d env vector_69d asignaturas_relevantes ++
      normalize_soft_skills soft_skills_1_to_5)

/-! ## Posting corpus engine (`app/models/recommender.py`) -/

/-- The one exception the engine's own code raises: the `ValueError` of
`_expand_offers_to_76d` line 108 (numpy's `vstack` raises the same kind on
mismatched widths). -/
inductive PyError where
  | valueError : PyError
deriving DecidableEq

/-- One row of a posting CSV (`PostingRecord`): every field optional, read
with `df.iloc[idx].get(column, default)`. -/
structure Oferta where
  job_title : Option Str
  description : Option Str
  eurace_skills : Option Str
  skills : Option Str
  url : Option Str
deriving DecidableEq

/-- A row with every field missing, the `.get` default supplier. -/
def Oferta.vacia : Oferta := ⟨none, none, none, none, none⟩

/-- A 2-dimensional numpy array: its shape and its entries. -/
structure Mat where
  rows : ℕ
  cols : ℕ
  entry : ℕ → ℕ → ℚ

/-- `arr.T`. -/
def Mat.transpose (m : Mat) : Mat := ⟨m.cols, m.rows, fun i j => m.entry j i⟩

/-- Row `i` of an array as a vector of its `cols` entries. -/
def Mat.row (m : Mat) (i : ℕ) : List ℚ :=
  (List.range m.cols).map fun j => m.entry i j

/-- The entry function of vertically stacked blocks: row offsets dispatch
into the block list. -/
def stackEntry : List Mat → ℕ → ℕ → ℚ
  | [], _, _ => 0
  | m :: rest, i, j => if i < m.rows then m.entry i j else stackEntry rest (i - m.rows) j

/-- `np.vstack`: all blocks must have the same width, else a `ValueError`
(also raised on an empty block list). -/
def vstack (ms : List Mat) : Except PyError Mat :=
  match ms with
  | [] => .error .valueError
  | m :: rest =>
    if rest.all fun x => x.cols = m.cols then
      .ok ⟨(ms.map Mat.rows).sum, m.cols, stackEntry ms⟩
    else .error .valueError

/-- One posting CSV as read from disk: its column list, its rows, and the
69-dimensional TF-IDF matrix the `CountVectorizer`/`TfidfTransformer`
pipeline of `_load_job_offers` (lines 54-77) computes for it.  That pipeline
is scikit-learn computation over the fixed vocabulary; its output enters the
model as data (in the real pipeline its shape is (`len(grupos)`, number of
rows), i.e. 69 rows when the grouping has its 69 keys). -/
structure Csv where
  columns : List Str
  ofertas : List Oferta
  tfidf : Mat

/-- The state a `RecommendationEngine` works against: the file system
(`None` for a path that does not exist or cannot be parsed), the
`CarreraMapper.CARRERA_TO_CSV` table (a single path as a one-element list,
matching the list normalisation of `get_recommendations` line 159), and the
cosine-similarity oracle of scikit-learn.  The global offers cache maps a
path to the same loaded value on every request, so the load is a function
of the path. -/
structure RecommendationEngine where
  fs : Str → Option Csv
  carrera_to_csv : List (Str × List Str)
  cos : List ℚ → List ℚ → ℚ

/-- The `required_cols = {'skills', 'description', 'EURACE_skills'}` of
`_load_job_offers` line 49. -/
def required_cols : List Str :=
  ["skills", "description", "EURACE_skills"].map String.toList

/-- `_load_job_offers` (lines 26-86): `None` when the file is absent (or the
read raises), `None` when a required column is missing; otherwise the rows
and their 69-dimensional TF-IDF matrix. -/
def load_job_offers (eng : RecommendationEngine) (csv_path : Str) :
    Option (List Oferta × Mat) :=
  match eng.fs csv_path with
  | none => none
  | some csv =>
    if required_cols.all fun c => decide (c ∈ csv.columns) then
      some (csv.ofertas, csv.tfidf)
    else none

/-- The per-source loading loop of `get_recommendations` (lines 166-177):
failed sources are skipped, and a loaded matrix with 69 rows is transposed
(`if arr.shape[0] == 69: arr = arr.T`). -/
def loadedSources (eng : RecommendationEngine) (csv_paths : List Str) :
    List (List Oferta × Mat) :=
  csv_paths.filterMap fun p =>
    (load_job_offers eng p).map fun df_arr =>
      (df_arr.1, if df_arr.2.rows = 69 then df_arr.2.transpose else df_arr.2)

/-- The `soft_skills_keywords` of `_expand_offers_to_76d` (lines 112-120). -/
def soft_skills_keywords : List Str :=
  ["gestion", "comunicacion", "liderazgo", "equipo", "etica",
    "responsabilidad", "aprendizaje"].map String.toList

/-- The soft-skill block of one posting (lines 122-127): 1.0 where the
keyword occurs in the lower-cased `EURACE_skills` text, else the 0.0 the
`np.zeros` initialisation left. -/
def softIndicator (o : Oferta) : List ℚ :=
  soft_skills_keywords.map fun kw =>
    if containsSub kw (lower (o.eurace_skills.getD [])) then 1 else 0

/-- `_expand_offers_to_76d` (lines 88-129): transpose a (69, `num_offers`)
matrix, raise `ValueError` unless the result is (`num_offers`, 69), then
append each posting's soft-skill block to its TF-IDF row. -/
def expand_offers_to_76d (tfidf_69d_array : Mat) (df_ofertas : List Oferta) :
    Except PyError (List (List ℚ)) :=
  let num_offers := df_ofertas.length
  let arr :=
    if tfidf_69d_array.rows = 69 ∧ tfidf_69d_array.cols = num_offers then
      tfidf_69d_array.transpose
    else tfidf_69d_array
  if arr.rows ≠ num_offers ∨ arr.cols ≠ 69 then .error .valueError
  else
    .ok ((List.range num_offers).map fun i =>
      arr.row i ++ softIndicator (df_ofertas.getD i Oferta.vacia))

/-- One entry of the `resultado` list of `get_recommendations`
(lines 213-221). -/
structure RecRow where
  rank : ℕ
  similitud : ℚ
  cargo : Str
  descripcion : Str
  eurace_skills : Str
  skills : Str
  url : Str
deriving DecidableEq

/-- The string `'N/A'`, the `.get` default of several result fields. -/
def nA : Str := "N/A".toList

/-- The description truncation of lines 209-211: cut to 100 characters and
append an ellipsis only when longer than 100. -/
def truncDesc (d : Str) : Str :=
  if 100 < d.length then d.take 100 ++ "...".toList else d

/-- The row appended for the posting at `idx` with `rank = len(resultado)+1`
(lines 213-221); the skills field is truncated to 100 characters with an
unconditional ellipsis. -/
def mkRow (ofertas : List Oferta) (similarities : List ℚ) (rank : ℕ)
    (idx : ℕ) : RecRow :=
  let o := ofertas.getD idx Oferta.vacia
  ⟨rank, similarities.getD idx 0, o.job_title.getD nA,
    truncDesc (o.description.getD []), o.eurace_skills.getD nA,
    (o.skills.getD nA).take 100 ++ "...".toList, strip (o.url.getD [])⟩

/-- The index order underlying `np.argsort(similarities)`: by similarity,
equal similarities by index.  This is the stable model of numpy's argsort
(argsort is a deterministic function of its input; a value-stable sort of
`range n` is exactly the lexicographic sort by (value, index)). -/
def ordenArgsort (sims : List ℚ) (i j : ℕ) : Prop :=
  sims.getD i 0 < sims.getD j 0 ∨ (sims.getD i 0 = sims.getD j 0 ∧ i ≤ j)

instance (sims : List ℚ) : DecidableRel (ordenArgsort sims) := fun i j =>
  inferInstanceAs (Decidable (sims.getD i 0 < sims.getD j 0 ∨
    (sims.getD i 0 = sims.getD j 0 ∧ i ≤ j)))

instance (sims : List ℚ) : IsTotal ℕ (ordenArgsort sims) := by
  constructor
  intro i j
  unfold ordenArgsort
  rcases lt_trichotomy (sims.getD i 0) (sims.getD j 0) with h | h | h
  · exact Or.inl (Or.inl h)
  · rcases Nat.le_total i j with hij | hij
    · exact Or.inl (Or.inr ⟨h, hij⟩)
    · exact Or.inr (Or.inr ⟨h.symm, hij⟩)
  · exact Or.inr (Or.inl h)

instance (sims : List ℚ) : IsTrans ℕ (ordenArgsort sims) := by
  constructor
  intro i j k hij hjk
  unfold ordenArgsort at hij hjk ⊢
  rcases hij with hij | ⟨hije, hijle⟩
  · rcases hjk with hjk | ⟨hjke, _⟩
    · exact Or.inl (hij.trans hjk)
    · exact Or.inl (hjke ▸ hij)
  · rcases hjk with hjk | ⟨hjke, hjkle⟩
    · exact Or.inl (hije ▸ hjk)
    · exact Or.inr ⟨hije.trans hjke, hijle.trans hjkle⟩

/-- The ascending index sort of `np.argsort(similarities)` under the stable
model: `range n` sorted by the lexicographic (value, index) order. -/
def argsortAsc (sims : List ℚ) : List ℕ :=
  List.insertionSort (ordenArgsort sims) (List.range sims.length)

/-- `indices_ordenados = np.argsort(similarities)[::-1]` (line 193). -/
def rankingOrder (sims : List ℚ) : List ℕ := (argsortAsc sims).reverse

/-- The selection walk of lines 196-221: follow the ranking order, stop once
`top_n` rows are collected, skip postings whose job title was already seen,
and append a row with rank `len(resultado) + 1` otherwise (the seen titles
are a set; a list with membership models it). -/
def seleccionarTop (ofertas : List Oferta) (similarities : List ℚ)
    (top_n : ℕ) : List ℕ → List RecRow → List Str → List RecRow
  | [], resultado, _ => resultado
  | idx :: rest, resultado, cargos_vistas =>
    if top_n ≤ resultado.length then resultado
    else
      let cargo := (ofertas.getD idx Oferta.vacia).job_title.getD nA
      if cargo ∈ cargos_vistas then
        seleccionarTop ofertas similarities top_n rest resultado cargos_vistas
      else
        seleccionarTop ofertas similarities top_n rest
          (resultado ++ [mkRow ofertas similarities (resultado.length + 1) idx])
          (cargo :: cargos_vistas)

/-- The tail of `get_recommendations` once the loaded sources are at hand
(lines 183-226): concatenate rows (`pd.concat`) and matrices (`np.vstack`),
expand to 76 dimensions, compute similarities against the student vector,
rank, select, and turn an empty selection into `None`. -/
def rankLoaded (eng : RecommendationEngine) (student_vector_76d : List ℚ)
    (top_n : ℕ) (loaded : List (List Oferta × Mat)) :
    Except PyError (Option (List RecRow)) :=
  let df_ofertas := loaded.flatMap fun x => x.1
  match vstack (loaded.map fun x => x.2) with
  | .error e => .error e
  | .ok tfidf_69d_array =>
    match expand_offers_to_76d tfidf_69d_array df_ofertas with
    | .error e => .error e
    | .ok vectores_76d =>
      let similarities := vectores_76d.map (eng.cos student_vector_76d)
      let resultado :=
        seleccionarTop df_ofertas similarities top_n
          (rankingOrder similarities) [] []
      if resultado = [] then .ok none else .ok (some resultado)

/-- `get_recommendations` (lines 131-226): `None` (no recommendations) for a
wrong-length student vector, an unmapped career, or a career none of whose
sources load; `top_n < 1` is replaced by the default 5; the path join with
the backend directory is the identity of the model's path keys. -/
def get_recommendations (eng : RecommendationEngine)
    (student_vector_76d : List ℚ) (carrera_academica : Str) (top_n : ℤ) :
    Except PyError (Option (List RecRow)) :=
  if student_vector_76d.length ≠ 76 then .ok none
  else
    match eng.carrera_to_csv.lookup carrera_academica with
    | none => .ok none
    | some csv_paths =>
      match loadedSources eng csv_paths with
      | [] => .ok none
      | loaded₀ :: loadedRest =>
        rankLoaded eng student_vector_76d
          (if top_n < 1 then 5 else top_n.toNat) (loaded₀ :: loadedRest)

/-! ## Concrete fixtures

Small closed environments on which the theorems below are instantiated:
counterexamples are evaluated on them, and witnesses discharge hypotheses
on them. -/

/-- A vectorizer fixture: two vocabulary terms, one group holding the
second term, and a similarity oracle matching only the second term. -/
def cexVect : UserVectorizer :=
  ⟨["a".toList, "b".toList], [("g".toList, ["b".toList])], [],
    fun _ hab => if hab = "b".toList then 1 else 0⟩

/-- A vectorizer fixture for the builder: one career column of 69 zeros. -/
def cexVect9 : UserVectorizer :=
  ⟨[], [], [("c".toList, List.replicate 69 0)], fun _ _ => 0⟩

/-- A posting row with the given title and nothing else. -/
def cexOferta (t : Str) : Oferta := ⟨some t, some [], none, none, none⟩

/-- A posting file of two postings titled `a` and `b`, whose TF-IDF matrix
is the zero matrix of the shape scikit-learn produces (69 rows, one column
per posting). -/
def cexCsv2 : Csv :=
  ⟨required_cols, [cexOferta "a".toList, cexOferta "b".toList],
    ⟨69, 2, fun _ _ => 0⟩⟩

/-- A posting file of a single posting titled `t`. -/
def cexCsv1 : Csv :=
  ⟨required_cols, [cexOferta "t".toList], ⟨69, 1, fun _ _ => 0⟩⟩

/-- A posting file whose TF-IDF matrix has a broken shape (5 × 68 for a
single posting). -/
def cexCsv7 : Csv :=
  ⟨required_cols, [cexOferta "t".toList], ⟨5, 68, fun _ _ => 0⟩⟩

/-- An engine over `cexCsv2` with a constant similarity oracle, so the two
postings tie. -/
def cexEng2 : RecommendationEngine :=
  ⟨fun _ => some cexCsv2, [("c".toList, ["p".toList])], fun _ _ => 0⟩

/-- An engine over the single-posting file. -/
def cexEng5 : RecommendationEngine :=
  ⟨fun _ => some cexCsv1, [("c".toList, ["p".toList])], fun _ _ => 0⟩

/-- An engine whose only source is absent from the file system. -/
def cexEng6 : RecommendationEngine :=
  ⟨fun _ => none, [("c".toList, ["p".toList])], fun _ _ => 0⟩

/-- An engine over the broken-shape file. -/
def cexEng7 : RecommendationEngine :=
  ⟨fun _ => some cexCsv7, [("c".toList, ["p".toList])], fun _ _ => 0⟩

/-- The bundle state of a loaded pickle that carries none of the three
reference structures. -/
def cexDatosVacios : DatosProcesados := ⟨none, none, none⟩

/-- The result row the single-posting engine produces for its posting. -/
def cexRow5 : RecRow :=
  ⟨1, 0, "t".toList, [], nA, "N/A...".toList, []⟩

/-! ## Lemmas: the write set of `personalize_vector_69d` -/

theorem aplicarSkill_length (habs : List Str) (v : List ℚ) (s : Str) :
    (aplicarSkill habs v s).length = v.length := by
  unfold aplicarSkill
  split
  · split
    · exact v.length_set ..
    · rfl
  · rfl

theorem foldl_aplicar_length (habs : List Str) (L : List Str) (v : List ℚ) :
    (L.foldl (aplicarSkill habs) v).length = v.length := by
  induction L generalizing v with
  | nil => rfl
  | cons s L ih => rw [List.foldl_cons, ih, aplicarSkill_length]

theorem foldl_aplicar_not_written (habs : List Str) (L : List Str)
    (v : List ℚ) (i : ℕ)
    (h : ∀ s ∈ L, ¬(s ∈ habs ∧ habs.indexOf s = i ∧ i < v.length)) :
    (L.foldl (aplicarSkill habs) v)[i]? = v[i]? := by
  induction L generalizing v with
  | nil => rfl
  | cons s L ih =>
    rw [List.foldl_cons]
    have hlen : (aplicarSkill habs v s).length = v.length :=
      aplicarSkill_length habs v s
    rw [ih (aplicarSkill habs v s) (by
      intro s' hs' hc
      exact h s' (List.mem_cons_of_mem s hs') ⟨hc.1, hc.2.1, hlen ▸ hc.2.2⟩)]
    unfold aplicarSkill
    by_cases hm : s ∈ habs
    · rw [if_pos hm]
      by_cases hlt : habs.indexOf s < v.length
      · rw [if_pos hlt, List.getElem?_set]
        have hne : habs.indexOf s ≠ i := by
          intro he
          exact h s (List.mem_cons_self s L) ⟨hm, he, he ▸ hlt⟩
        rw [if_neg hne]
      · rw [if_neg hlt]
    · rw [if_neg hm]

theorem foldl_aplicar_written (habs : List Str) (L : List Str) (v : List ℚ)
    (i : ℕ) (h : ∃ s ∈ L, s ∈ habs ∧ habs.indexOf s = i ∧ i < v.length) :
    (L.foldl (aplicarSkill habs) v)[i]? = some pesoMax := by
  induction L generalizing v with
  | nil => simp at h
  | cons s L ih =>
    rw [List.foldl_cons]
    have hlen : (aplicarSkill habs v s).length = v.length :=
      aplicarSkill_length habs v s
    by_cases hL : ∃ s' ∈ L,
        s' ∈ habs ∧ habs.indexOf s' = i ∧ i < (aplicarSkill habs v s).length
    · exact ih (aplicarSkill habs v s) hL
    · rw [foldl_aplicar_not_written habs L (aplicarSkill habs v s) i (by
        intro s' hs' hc
        exact hL ⟨s', hs', hc⟩)]
      obtain ⟨s', hs'mem, hs'habs, hs'idx, hs'lt⟩ := h
      rcases List.mem_cons.mp hs'mem with rfl | htail
      · unfold aplicarSkill
        rw [if_pos hs'habs, if_pos (hs'idx ▸ hs'lt), List.getElem?_set,
          if_pos hs'idx, if_pos (hs'idx ▸ hs'lt)]
      · exact absurd ⟨s', htail, hs'habs, hs'idx, hlen ▸ hs'lt⟩ hL

theorem foldl_flatMap {α β γ : Type*} (f : α → List β) (g : γ → β → γ)
    (l : List α) (init : γ) :
    (l.flatMap f).foldl g init =
      l.foldl (fun acc a => (f a).foldl g acc) init := by
  induction l generalizing init with
  | nil => rfl
  | cons a l ih => rw [List.flatMap_cons, List.foldl_append, List.foldl_cons, ih]

theorem personalize_eq_foldl (env : UserVectorizer) (base : List ℚ)
    (h69 : base.length = 69) (asigs : Str) :
    personalize_vector_69d env base asigs =
      (matchedSkills env asigs).foldl (aplicarSkill env.habilidades) base := by
  unfold personalize_vector_69d matchedSkills
  rw [foldl_flatMap, if_neg (by simp [h69])]

theorem personalize_length (env : UserVectorizer) (base : List ℚ)
    (asigs : Str) :
    (personalize_vector_69d env base asigs).length = base.length := by
  by_cases h69 : base.length = 69
  · rw [personalize_eq_foldl env base h69 asigs, foldl_aplicar_length]
  · unfold personalize_vector_69d
    rw [if_pos h69]

theorem personalize_written (env : UserVectorizer) (base : List ℚ)
    (h69 : base.length = 69) (asigs : Str) (i : ℕ)
    (h : ∃ s ∈ matchedSkills env asigs,
      s ∈ env.habilidades ∧ env.habilidades.indexOf s = i ∧ i < 69) :
    (personalize_vector_69d env base asigs)[i]? = some pesoMax := by
  rw [personalize_eq_foldl env base h69 asigs]
  exact foldl_aplicar_written _ _ _ _ (by rw [h69]; exact h)

theorem personalize_not_written (env : UserVectorizer) (base : List ℚ)
    (asigs : Str) (i : ℕ)
    (h : ∀ s ∈ matchedSkills env asigs,
      ¬(s ∈ env.habilidades ∧ env.habilidades.indexOf s = i)) :
    (personalize_vector_69d env base asigs)[i]? = base[i]? := by
  by_cases h69 : base.length = 69
  · rw [personalize_eq_foldl env base h69 asigs]
    exact foldl_aplicar_not_written _ _ _ _
      (fun s hs hc => h s hs ⟨hc.1, hc.2.1⟩)
  · unfold personalize_vector_69d
    rw [if_pos h69]

theorem matched_mem_habilidades (env : UserVectorizer) (asigs : Str)
    (s : Str) (h : s ∈ matchedSkills env asigs) : s ∈ env.habilidades := by
  unfold matchedSkills at h
  rw [List.mem_flatMap] at h
  obtain ⟨a, _, hs⟩ := h
  unfold find_similar_skills at hs
  split at hs
  · simp at hs
  · exact (List.mem_filter.mp hs).1

/-! ## Claims about personalization (C1, C8, C10) -/

/-- C1 (amended). `personalize_vector_69d` does not write at group
dimensions: for a 69-length base vector, each vocabulary term matched by
some subject token overwrites the component at the term's index in the
vocabulary list with exactly 0.99 — and only when that index is below 69 —
while every component that is no matched term's vocabulary index keeps its
base value.  The group mapping `grupos_bge_ngram` plays no role. -/
theorem personalize_overwrites_vocab_index (env : UserVectorizer)
    (base : List ℚ) (h69 : base.length = 69) (asigs : Str) :
    (∀ s ∈ matchedSkills env asigs, env.habilidades.indexOf s < 69 →
      (personalize_vector_69d env base asigs)[env.habilidades.indexOf s]? =
        some pesoMax)
  ∧ ∀ i, (∀ s ∈ matchedSkills env asigs, env.habilidades.indexOf s ≠ i) →
      (personalize_vector_69d env base asigs)[i]? = base[i]? := by
  constructor
  · intro s hs hlt
    exact personalize_written env base h69 asigs _
      ⟨s, hs, matched_mem_habilidades env asigs s hs, rfl, hlt⟩
  · intro i h
    exact personalize_not_written env base asigs i
      (fun s hs hc => h s hs hc.2)

/-- C1 (counterexample to the claim as stated). In the fixture, the subject
token `x` matches the vocabulary term `b`; `b` belongs to the first (and
only) group of `SkillGroupMapping`, so the claim as stated predicts that
dimension 0 of the vector is overwritten with 0.99.  The code instead
leaves component 0 at its base value (it writes at the term's vocabulary
index, 1). -/
theorem personalize_group_claim_false :
    "b".toList ∈ matchedSkills cexVect ("x".toList) ∧
    cexVect.grupos_bge_ngram = [("g".toList, ["b".toList])] ∧
    (personalize_vector_69d cexVect (List.replicate 69 0)
      ("x".toList))[0]? = some 0 ∧
    (0 : ℚ) ≠ pesoMax := by decide

/-- C1 (witness). The amended claim applied to the fixture: the matched
term `b` has vocabulary index 1 and component 1 is overwritten with 0.99. -/
theorem personalize_overwrites_vocab_index_inst :
    (personalize_vector_69d cexVect (List.replicate 69 0)
      ("x".toList))[1]? = some pesoMax := by
  have h := (personalize_overwrites_vocab_index cexVect
    (List.replicate 69 0) (by decide) ("x".toList)).1
    ("b".toList) (by decide) (by decide)
  have hidx : cexVect.habilidades.indexOf ("b".toList) = 1 := by decide
  rw [hidx] at h
  exact h

/-- C8. Personalization is idempotent: personalizing the personalized
vector with the same subjects text changes nothing, for every base vector
(of any length) and every subjects text. -/
theorem personalize_idempotent (env : UserVectorizer) (base : List ℚ)
    (asigs : Str) :
    personalize_vector_69d env (personalize_vector_69d env base asigs) asigs
      = personalize_vector_69d env base asigs := by
  by_cases h69 : base.length = 69
  · have hp : (personalize_vector_69d env base asigs).length = 69 := by
      rw [personalize_length, h69]
    apply List.ext_getElem?
    intro i
    by_cases hi : i < 69
    · by_cases hw : ∃ s ∈ matchedSkills env asigs,
          s ∈ env.habilidades ∧ env.habilidades.indexOf s = i
      · obtain ⟨s, hs, hm, hidx⟩ := hw
        rw [personalize_written env _ hp asigs i ⟨s, hs, hm, hidx, hi⟩,
          personalize_written env base h69 asigs i ⟨s, hs, hm, hidx, hi⟩]
      · push_neg at hw
        exact personalize_not_written env _ asigs i
          (fun s hs hc => hw s hs hc.1 hc.2)
    · have l1 : (personalize_vector_69d env
          (personalize_vector_69d env base asigs) asigs).length = 69 := by
        rw [personalize_length, hp]
      have hge : 69 ≤ i := by omega
      rw [List.getElem?_eq_none (by rw [l1]; exact hge),
        List.getElem?_eq_none (by rw [hp]; exact hge)]
  · have hb : personalize_vector_69d env base asigs = base := by
      unfold personalize_vector_69d
      rw [if_pos h69]
    rw [hb]
    exact hb

/-- C10. The frame of personalization: a base vector whose length is not
69 is returned untouched; otherwise the output has the same length and
every component that is not a matched term's vocabulary index equals the
corresponding base component (the source operates on `vector_base_69d.copy()`,
so in the pure model the base value is simply what the untouched components
carry; the shared academic matrix is never written). -/
theorem personalize_frame (env : UserVectorizer) (base : List ℚ)
    (asigs : Str) :
    (base.length ≠ 69 → personalize_vector_69d env base asigs = base)
  ∧ (personalize_vector_69d env base asigs).length = base.length
  ∧ ∀ i, (∀ s ∈ matchedSkills env asigs,
      ¬(s ∈ env.habilidades ∧ env.habilidades.indexOf s = i)) →
      (personalize_vector_69d env base asigs)[i]? = base[i]? :=
  ⟨fun h => by unfold personalize_vector_69d; rw [if_pos h],
   personalize_length env base asigs,
   fun i h => personalize_not_written env base asigs i h⟩

/-- C10 (witness). On the fixture, a base of the wrong length (68) comes
back unchanged, and component 0 (no matched term's index) keeps its base
value on a 69-length base. -/
theorem personalize_frame_inst :
    personalize_vector_69d cexVect (List.replicate 68 0) ("x".toList) =
      List.replicate 68 0 ∧
    (personalize_vector_69d cexVect (List.replicate 69 0)
      ("x".toList))[0]? = (List.replicate 69 (0 : ℚ))[0]? := by
  constructor
  · exact (personalize_frame cexVect (List.replicate 68 0) ("x".toList)).1
      (by decide)
  · exact (personalize_frame cexVect (List.replicate 69 0)
      ("x".toList)).2.2 0 (by decide)

/-! ## Claims about the data manager and the vector builder (C3, C4, C9) -/

/-- C3 (amended). `is_ready` is true exactly when the load flag is set and
the unpickled bundle reference is present; it never inspects the three
reference structures, so its value is the same whatever the bundle holds. -/
theorem is_ready_iff_loaded :
    (∀ st : DataManagerState,
      st.is_ready = true ↔
        st.is_loaded = true ∧ st.datos_procesados.isSome = true)
  ∧ ∀ (b : Bool) (d d' : DatosProcesados),
      DataManagerState.is_ready ⟨b, some d⟩ =
        DataManagerState.is_ready ⟨b, some d'⟩ := by
  constructor
  · intro st
    unfold DataManagerState.is_ready
    rw [Bool.and_eq_true]
  · intro b d d'
    rfl

/-- C3 (counterexample to the claim as stated). A state whose bundle loaded
but carries none of the three keys: `is_ready` returns true while the skill
vocabulary, the grouping and the academic matrix are all absent (their
accessors return the empty defaults). -/
theorem is_ready_true_with_empty_structures :
    DataManagerState.is_ready ⟨true, some cexDatosVacios⟩ = true ∧
    DataManagerState.habilidades ⟨true, some cexDatosVacios⟩ = [] ∧
    DataManagerState.grupos_bge_ngram ⟨true, some cexDatosVacios⟩ = [] ∧
    DataManagerState.tfidf_epn_69d ⟨true, some cexDatosVacios⟩ = [] := by
  exact ⟨rfl, rfl, rfl, rfl⟩

/-- C4. Soft-skill normalization: a missing list or one whose length is not
7 yields the neutral default of seven 0.5 components (the function is total,
so no exception); a 7-length list is mapped pointwise by clamping to [1, 5]
and then `(value - 1) / 4`, sending all-1 to all-0, all-5 to all-1 and
all-3 to all-0.5. -/
theorem normalize_soft_skills_spec (valores : Option (List ℚ)) :
    ((valores = none ∨ ∃ l, valores = some l ∧ l.length ≠ 7) →
      normalize_soft_skills valores = List.replicate 7 (mkRat 1 2))
  ∧ (∀ l, valores = some l → l.length = 7 →
      normalize_soft_skills valores =
        l.map fun v => (min (max v 1) 5 - 1) / 4)
  ∧ (normalize_soft_skills valores).length = 7
  ∧ normalize_soft_skills (some (List.replicate 7 1)) = List.replicate 7 0
  ∧ normalize_soft_skills (some (List.replicate 7 5)) = List.replicate 7 1
  ∧ normalize_soft_skills (some (List.replicate 7 3)) =
      List.replicate 7 (mkRat 1 2) := by
  refine ⟨?_, ?_, ?_, ?_, ?_, ?_⟩
  · rintro (rfl | ⟨l, rfl, hl⟩)
    · rfl
    · simp only [normalize_soft_skills]
      rw [if_pos hl]
  · rintro l rfl hl
    simp only [normalize_soft_skills]
    rw [if_neg (by omega)]
  · cases valores with
    | none => rfl
    | some l =>
      simp only [normalize_soft_skills]
      split
      · rfl
      · rename_i hne
        rw [List.length_map]
        omega
  · with_unfolding_all decide
  · with_unfolding_all decide
  · with_unfolding_all decide

/-- C4 (witness). A 6-length list degrades to the neutral default, and the
all-3 list maps to all-0.5, both read off the theorem at concrete inputs. -/
theorem normalize_soft_skills_spec_inst :
    normalize_soft_skills (some [1, 2, 3, 4, 5, 1]) =
      List.replicate 7 (mkRat 1 2) := by
  exact (normalize_soft_skills_spec (some [1, 2, 3, 4, 5, 1])).1
    (Or.inr ⟨[1, 2, 3, 4, 5, 1], rfl, by decide⟩)

/-- Membership from a successful association-list lookup. -/
theorem mem_of_lookup {α β : Type*} [BEq α] [LawfulBEq α]
    {l : List (α × β)} {a : α} {b : β} (h : l.lookup a = some b) :
    (a, b) ∈ l := by
  induction l with
  | nil => simp [List.lookup] at h
  | cons p t ih =>
    rw [List.lookup] at h
    by_cases hc : a == p.1
    · simp [hc] at h
      cases p
      simp at hc
      subst hc
      rw [List.mem_cons]
      exact Or.inl (by rw [← h])
    · simp [hc] at h
      exact List.mem_cons_of_mem p (ih h)

/-- Every component of the soft-skill block lies in the unit interval. -/
theorem normalize_soft_skills_mem_unit (valores : Option (List ℚ)) (q : ℚ)
    (hq : q ∈ normalize_soft_skills valores) : 0 ≤ q ∧ q ≤ 1 := by
  have hdefault : ∀ r : ℚ, r ∈ List.replicate 7 (mkRat 1 2) →
      0 ≤ r ∧ r ≤ 1 := by
    intro r hr
    rw [List.eq_of_mem_replicate hr]
    constructor <;> decide
  cases valores with
  | none => exact hdefault q hq
  | some l =>
    simp only [normalize_soft_skills] at hq
    split at hq
    · exact hdefault q hq
    · rw [List.mem_map] at hq
      obtain ⟨v, _, rfl⟩ := hq
      have h1 : 1 ≤ min (max v 1) 5 :=
        le_min (le_max_right v 1) (by norm_num)
      have h5 : min (max v 1) 5 ≤ 5 := min_le_right _ _
      constructor
      · apply div_nonneg _ (by norm_num)
        linarith
      · rw [div_le_one (by norm_num)]
        linarith

/-- C9. Under the data-model invariant that every column of the academic
matrix has 69 rows: for every career present as a column,
`create_vector_76d` returns a vector of length exactly 76 whose components
69 to 75 lie in [0, 1]; for a career absent from the matrix it returns no
vector (`None`) instead of raising. -/
theorem create_vector_76d_spec (env : UserVectorizer)
    (hcols : ∀ p ∈ env.tfidf_epn_69d, p.2.length = 69) (carrera : Str)
    (asigs : Str) (soft : Option (List ℚ)) :
    (∀ col, env.tfidf_epn_69d.lookup carrera = some col →
      ∃ v, create_vector_76d env carrera asigs soft = some v ∧
        v.length = 76 ∧
        ∀ i, 69 ≤ i → i < 76 → ∃ q, v[i]? = some q ∧ 0 ≤ q ∧ q ≤ 1)
  ∧ (env.tfidf_epn_69d.lookup carrera = none →
      create_vector_76d env carrera asigs soft = none) := by
  constructor
  · intro col hcol
    have hcol69 : col.length = 69 := hcols (carrera, col) (mem_of_lookup hcol)
    have hper : (personalize_vector_69d env col asigs).length = 69 := by
      rw [personalize_length, hcol69]
    have hsoft : (normalize_soft_skills soft).length = 7 :=
      (normalize_soft_skills_spec soft).2.2.1
    refine ⟨personalize_vector_69d env col asigs ++
      normalize_soft_skills soft, ?_, ?_, ?_⟩
    · unfold create_vector_76d get_academic_vector_69d
      rw [hcol]
    · rw [List.length_append, hper, hsoft]
    · intro i h69 h76
      have hidx : i - 69 < (normalize_soft_skills soft).length := by omega
      refine ⟨(normalize_soft_skills soft)[i - 69], ?_, ?_⟩
      · rw [List.getElem?_append_right (by omega : (personalize_vector_69d
          env col asigs).length ≤ i), hper, List.getElem?_eq_getElem hidx]
      · exact normalize_soft_skills_mem_unit soft _
          (List.getElem_mem hidx)
  · intro hnone
    unfold create_vector_76d get_academic_vector_69d
    rw [hnone]

/-- C9 (witness). The builder on the one-career fixture: the career `c`
yields a 76-length vector, and the unmapped career `z` yields none. -/
theorem create_vector_76d_spec_inst :
    (∃ v, create_vector_76d cexVect9 ("c".toList) [] none = some v ∧
      v.length = 76) ∧
    create_vector_76d cexVect9 ("z".toList) [] none = none := by
  constructor
  · obtain ⟨v, hv, hlen, _⟩ :=
      (create_vector_76d_spec cexVect9 (by decide) ("c".toList) [] none).1
        (List.replicate 69 0) rfl
    exact ⟨v, hv, hlen⟩
  · exact (create_vector_76d_spec cexVect9 (by decide) ("z".toList) []
      none).2 rfl

/-! ## Claims about the ranking order (C2) -/

/-- C2 (amended). The ranking order `np.argsort(similarities)[::-1]` (under
the stable model of argsort) visits every posting exactly once, in
non-increasing similarity order; among postings of equal similarity the one
later in concatenated source/record order comes first (the code reverses an
ascending argsort, so the stable tie-break is last-seen wins, not
first-seen).  The model of `get_recommendations` is a pure function of the
engine state — which includes the cache contents — so identical inputs give
identical ordered output. -/
theorem ranking_desc_lastseen (sims : List ℚ) :
    (rankingOrder sims).Perm (List.range sims.length)
  ∧ (rankingOrder sims).Pairwise (fun i j =>
      sims.getD j 0 < sims.getD i 0 ∨
        (sims.getD i 0 = sims.getD j 0 ∧ j ≤ i))
  ∧ ∀ (eng : RecommendationEngine) (v : List ℚ) (c : Str) (tn : ℤ),
      get_recommendations eng v c tn = get_recommendations eng v c tn := by
  refine ⟨?_, ?_, fun _ _ _ _ => rfl⟩
  · exact (List.reverse_perm _).trans (List.perm_insertionSort _ _)
  · have hs : (argsortAsc sims).Pairwise (ordenArgsort sims) :=
      List.sorted_insertionSort (ordenArgsort sims) (List.range sims.length)
    unfold rankingOrder
    rw [List.pairwise_reverse]
    exact hs.imp fun h => h.imp id fun hc => ⟨hc.1.symm, hc.2⟩

/-- C2 (counterexample to the claim as stated). On the two-posting fixture
both postings have the same similarity (the oracle is constant 0), yet the
posting that comes second in record order (`b`) is ranked first: the
first-seen-wins tie-break of the claim does not hold. -/
theorem ranking_firstseen_false :
    get_recommendations cexEng2 (List.replicate 76 0) ("c".toList) 5 =
      .ok (some
        [⟨1, 0, "b".toList, [], nA, "N/A...".toList, []⟩,
         ⟨2, 0, "a".toList, [], nA, "N/A...".toList, []⟩]) := by
  rfl

/-! ## Lemmas: the selection walk and the shape of a successful run -/

theorem seleccionar_length_le (ofertas : List Oferta) (sims : List ℚ)
    (tn : ℕ) (order : List ℕ) :
    ∀ (res : List RecRow) (seen : List Str), res.length ≤ tn →
      (seleccionarTop ofertas sims tn order res seen).length ≤ tn := by
  induction order with
  | nil => intro res seen h; exact h
  | cons idx rest ih =>
    intro res seen h
    simp only [seleccionarTop]
    split
    · exact h
    · rename_i hlt
      split
      · exact ih res seen h
      · refine ih _ _ ?_
        rw [List.length_append]
        simp only [List.length_cons, List.length_nil]
        omega

theorem seleccionar_nodup (ofertas : List Oferta) (sims : List ℚ) (tn : ℕ)
    (order : List ℕ) :
    ∀ (res : List RecRow) (seen : List Str),
      (∀ r ∈ res, r.cargo ∈ seen) → (res.map RecRow.cargo).Nodup →
      ((seleccionarTop ofertas sims tn order res seen).map
        RecRow.cargo).Nodup := by
  induction order with
  | nil => intro res seen _ h2; exact h2
  | cons idx rest ih =>
    intro res seen h1 h2
    simp only [seleccionarTop]
    split
    · exact h2
    · split
      · exact ih res seen h1 h2
      · rename_i hnotseen
        refine ih _ _ ?_ ?_
        · intro r hr
          rw [List.mem_append] at hr
          rcases hr with hr | hr
          · exact List.mem_cons_of_mem _ (h1 r hr)
          · rw [List.mem_singleton] at hr
            subst hr
            exact List.mem_cons_self _ _
        · rw [List.map_append, List.nodup_append]
          refine ⟨h2, List.nodup_singleton _, ?_⟩
          intro a ha hb
          simp only [List.map_cons, List.map_nil, List.mem_singleton] at hb
          rw [List.mem_map] at ha
          obtain ⟨r, hr, hra⟩ := ha
          subst hb
          have hmem : r.cargo ∈ seen := h1 r hr
          rw [hra] at hmem
          exact hnotseen hmem

theorem seleccionar_ranks (ofertas : List Oferta) (sims : List ℚ) (tn : ℕ)
    (order : List ℕ) :
    ∀ (res : List RecRow) (seen : List Str),
      res.map RecRow.rank = List.range' 1 res.length →
      (seleccionarTop ofertas sims tn order res seen).map RecRow.rank =
        List.range' 1
          (seleccionarTop ofertas sims tn order res seen).length := by
  induction order with
  | nil => intro res seen h; exact h
  | cons idx rest ih =>
    intro res seen h
    simp only [seleccionarTop]
    split
    · exact h
    · split
      · exact ih res seen h
      · refine ih _ _ ?_
        rw [List.map_append, h, List.length_append]
        simp only [List.map_cons, List.map_nil, List.length_cons,
          List.length_nil]
        rw [show (mkRow ofertas sims (res.length + 1) idx).rank =
          res.length + 1 from rfl]
        rw [List.range'_concat, Nat.one_mul, Nat.add_comm 1 res.length]

theorem get_recommendations_ok_shape (eng : RecommendationEngine)
    (v : List ℚ) (c : Str) (tn : ℤ) (l : List RecRow)
    (h : get_recommendations eng v c tn = .ok (some l)) :
    ∃ ofertas sims, l = seleccionarTop ofertas sims
      (if tn < 1 then 5 else tn.toNat) (rankingOrder sims) [] [] := by
  unfold get_recommendations at h
  set eff := (if tn < 1 then (5 : ℕ) else tn.toNat) with heff
  split at h
  · exact absurd h (by simp)
  · split at h
    · exact absurd h (by simp)
    · split at h
      · exact absurd h (by simp)
      · simp only [rankLoaded] at h
        split at h
        · exact absurd h (by simp)
        · split at h
          · exact absurd h (by simp)
          · split at h
            · exact absurd h (by simp)
            · rw [Except.ok.injEq, Option.some.injEq] at h
              exact ⟨_, _, h.symm⟩

/-! ## Claims about the recommendation walk and error handling (C5, C6, C7) -/

/-- C5 (amended). Every successful result list of `get_recommendations` has
at most `top_n` entries when `top_n ≥ 1` — a non-positive `top_n` is
replaced by the default 5, so then at most 5 entries — never two entries
with the same job title (exact string comparison), and 1-based contiguous
ranks. -/
theorem recommendations_topn_dedup_ranks (eng : RecommendationEngine)
    (v : List ℚ) (c : Str) (tn : ℤ) (l : List RecRow)
    (h : get_recommendations eng v c tn = .ok (some l)) :
    l.length ≤ (if tn < 1 then 5 else tn.toNat)
  ∧ (l.map RecRow.cargo).Nodup
  ∧ l.map RecRow.rank = List.range' 1 l.length := by
  obtain ⟨ofertas, sims, rfl⟩ := get_recommendations_ok_shape eng v c tn l h
  refine ⟨?_, ?_, ?_⟩
  · exact seleccionar_length_le ofertas sims _ _ [] [] (Nat.zero_le _)
  · exact seleccionar_nodup ofertas sims _ _ [] [] (by simp) (by simp)
  · exact seleccionar_ranks ofertas sims _ _ [] [] rfl

/-- C5 (counterexample to the claim as stated). With `top_n = 0` the engine
substitutes the default 5 and returns one row — more than the requested
zero — so "at most topN entries" fails for non-positive topN. -/
theorem recommendations_topn_zero_violates :
    get_recommendations cexEng5 (List.replicate 76 0) ("c".toList) 0 =
      .ok (some [cexRow5]) ∧ ¬([cexRow5].length ≤ 0) := by
  exact ⟨rfl, by decide⟩

/-- C5 (witness). The amended claim read off a concrete run with
`top_n = 3` on the single-posting fixture. -/
theorem recommendations_topn_dedup_ranks_inst :
    [cexRow5].length ≤ (if (3 : ℤ) < 1 then 5 else (3 : ℤ).toNat)
  ∧ ([cexRow5].map RecRow.cargo).Nodup
  ∧ [cexRow5].map RecRow.rank = List.range' 1 [cexRow5].length := by
  exact recommendations_topn_dedup_ranks cexEng5 (List.replicate 76 0)
    ("c".toList) 3 [cexRow5] rfl

/-- C6. Failed posting sources are skipped, never raised: an absent file
loads to nothing; a file missing a required column loads to nothing; a
failed source drops out of the loaded-source list while its siblings keep
their places; and when every source of the career fails,
`get_recommendations` returns the no-recommendations result, not an
error. -/
theorem failed_sources_skipped :
    (∀ (eng : RecommendationEngine) (p : Str), eng.fs p = none →
      load_job_offers eng p = none)
  ∧ (∀ (eng : RecommendationEngine) (p : Str) (csv : Csv),
      eng.fs p = some csv → ¬(∀ col ∈ required_cols, col ∈ csv.columns) →
      load_job_offers eng p = none)
  ∧ (∀ (eng : RecommendationEngine) (paths₁ paths₂ : List Str) (p : Str),
      load_job_offers eng p = none →
      loadedSources eng (paths₁ ++ p :: paths₂) =
        loadedSources eng (paths₁ ++ paths₂))
  ∧ (∀ (eng : RecommendationEngine) (v : List ℚ) (c : Str) (tn : ℤ)
      (paths : List Str), eng.carrera_to_csv.lookup c = some paths →
      (∀ p ∈ paths, load_job_offers eng p = none) →
      get_recommendations eng v c tn = .ok none) := by
  refine ⟨?_, ?_, ?_, ?_⟩
  · intro eng p h
    unfold load_job_offers
    rw [h]
  · intro eng p csv h hcols
    simp only [load_job_offers, h]
    rw [if_neg]
    intro hall
    rw [List.all_eq_true] at hall
    exact hcols fun col hcol => of_decide_eq_true (hall col hcol)
  · intro eng paths₁ paths₂ p h
    unfold loadedSources
    rw [List.filterMap_append, List.filterMap_append, List.filterMap_cons, h]
    rfl
  · intro eng v c tn paths hlook hfail
    have hempty : loadedSources eng paths = [] := by
      unfold loadedSources
      rw [List.filterMap_eq_nil_iff]
      intro p hp
      rw [hfail p hp]
      rfl
    unfold get_recommendations
    split
    · rfl
    · simp only [hlook, hempty]

/-- C6 (witness). The engine whose only source is absent from disk yields
the no-recommendations result. -/
theorem failed_sources_skipped_inst :
    get_recommendations cexEng6 (List.replicate 76 0) ("c".toList) 5 =
      .ok none := by
  exact failed_sources_skipped.2.2.2 cexEng6 (List.replicate 76 0)
    ("c".toList) 5 ["p".toList] rfl fun p hp => rfl

/-- A TF-IDF matrix whose shape is not (number of postings, 69) even after
the transposed orientation is allowed for makes `_expand_offers_to_76d`
raise its `ValueError`. -/
theorem expand_error_of_bad_shape (arr : Mat) (df : List Oferta)
    (h : ¬((if arr.rows = 69 ∧ arr.cols = df.length then arr.transpose
        else arr).rows = df.length ∧
      (if arr.rows = 69 ∧ arr.cols = df.length then arr.transpose
        else arr).cols = 69)) :
    expand_offers_to_76d arr df = .error .valueError := by
  simp only [expand_offers_to_76d]
  rw [if_pos]
  by_contra hc
  push_neg at hc
  exact h ⟨hc.1, hc.2⟩

/-- C7. When the pipeline reaches the 76-dimensional expansion with a
stacked TF-IDF matrix whose shape is not (number of postings, 69) — the
transposed orientation allowed for — the `ValueError` raised there
propagates out of `get_recommendations` instead of being swallowed. -/
theorem bad_shape_raises (eng : RecommendationEngine) (v : List ℚ)
    (c : Str) (tn : ℤ) (paths : List Str) (loaded₀ : List Oferta × Mat)
    (loadedRest : List (List Oferta × Mat)) (arr : Mat)
    (h76 : v.length = 76)
    (hlook : eng.carrera_to_csv.lookup c = some paths)
    (hload : loadedSources eng paths = loaded₀ :: loadedRest)
    (hvs : vstack ((loaded₀ :: loadedRest).map fun x => x.2) = .ok arr)
    (hbad : ¬((if arr.rows = 69 ∧ arr.cols =
        ((loaded₀ :: loadedRest).flatMap fun x => x.1).length then
        arr.transpose else arr).rows =
        ((loaded₀ :: loadedRest).flatMap fun x => x.1).length ∧
      (if arr.rows = 69 ∧ arr.cols =
        ((loaded₀ :: loadedRest).flatMap fun x => x.1).length then
        arr.transpose else arr).cols = 69)) :
    get_recommendations eng v c tn = .error .valueError := by
  unfold get_recommendations
  rw [if_neg (by rw [h76]; exact fun hx => hx rfl)]
  simp only [hlook, hload, rankLoaded, hvs]
  rw [expand_error_of_bad_shape arr _ hbad]

/-- C7 (witness). The broken-shape fixture (a 5 × 68 matrix for one
posting): the error reaches the caller of `get_recommendations`. -/
theorem bad_shape_raises_inst :
    get_recommendations cexEng7 (List.replicate 76 0) ("c".toList) 5 =
      .error PyError.valueError := by
  exact bad_shape_raises cexEng7 (List.replicate 76 0) ("c".toList) 5
    ["p".toList] (cexCsv7.ofertas, cexCsv7.tfidf) []
    ⟨5, 68, stackEntry [cexCsv7.tfidf]⟩ (by decide) rfl rfl rfl (by decide)

end PRY
